import Mathlib

/-!
Shallow embedding of `tools/ibv_code_generator/generate-code.py`.

The script's data flow is: raw prototype lines → `FunctionPrototype`
models (built from `FunctionParameter` and `Type`) → text emitters
(`generate_args_struct`, `generate_kernel_function`,
`generate_uhyve_cases`, `generate_uhyve_function`, `generate_port_enum`,
`generate_port_macros`) → six output files assembled in `__main__`.

Strings are embedded as `List Char` (abbreviated `Str`), so that the
Python primitives `str.split(sep)` and `sep.join(pieces)` — the only
string operations the parser uses — become structurally recursive
functions amenable to induction.  Every separator the script uses is a
single character (`"("`, `")"`, `","`, `" "`, and `"\n"` for file-line
iteration).
-/

set_option maxRecDepth 8192

abbrev Str := List Char

/-- Python `s.split(sep)` for a single-character separator `sep`: splits
at every occurrence of `sep`, keeping empty pieces, and yields `[""]`
for the empty string.  The result is never the empty list. -/
def splitc (sep : Char) : Str → List Str
  | [] => [[]]
  | c :: cs =>
    match splitc sep cs with
    | [] => [[c]]
    | r :: rs => if c = sep then [] :: r :: rs else (c :: r) :: rs

/-- Python `sep.join(pieces)`. -/
def joinWith (sep : Str) : List Str → Str
  | [] => []
  | [x] => x
  | x :: y :: ys => x ++ sep ++ joinWith sep (y :: ys)

/-- Python `str.upper()`; the script only upper-cases ASCII function
names, where `Char.toUpper` agrees with Python. -/
def pyUpper (s : Str) : Str := s.map Char.toUpper

/-- Python `format(n, "X")`: uppercase hexadecimal digits of `n`, with
no `0x` prefix (the emitters prepend `"0x"` themselves). -/
def toHexUpper (n : Nat) : Str := (Nat.toDigits 16 n).map Char.toUpper

/-- Python exceptions the embedded code can raise. -/
inductive PyError where
  | nameError
deriving DecidableEq

/-- `PORT_NUMBER_START`: starting number of the sequence used for IBV
ports. -/
def PORT_NUMBER_START : Nat := 0x610

/-- Embeds class `Type` of the script; named `Ty` because `Type` is a
Lean sort.  `__init__` stores the raw string and its space-split
components (the normalization block in the source is commented out and
therefore dead). -/
structure Ty where
  type_string : Str
  type_components : List Str
deriving DecidableEq

/-- `Type.__init__(string)`. -/
def Ty.ofString (s : Str) : Ty :=
  { type_string := s, type_components := splitc ' ' s }

/-- `Type.is_struct`: `self.type_components[0] == "struct"`.  The
component list of a constructed `Ty` is never empty (`splitc` never
returns `[]`), so indexing with `[0]` is embedded as `headD`. -/
def Ty.is_struct (t : Ty) : Bool :=
  t.type_components.headD [] == "struct".data

/-- `Type.is_pointer`: `self.type_components[-1] == "*"`. -/
def Ty.is_pointer (t : Ty) : Bool :=
  t.type_components.getLastD [] == "*".data

/-- `Type.is_pointer_pointer`: `self.type_components[-1] == "**"`. -/
def Ty.is_pointer_pointer (t : Ty) : Bool :=
  t.type_components.getLastD [] == "**".data

/-- `Type.is_char_arr`: `self.is_pointer() and "char" in
self.type_components`. -/
def Ty.is_char_arr (t : Ty) : Bool :=
  t.is_pointer && t.type_components.contains "char".data

/-- `Type.is_void`: `self.type_string == "void"`. -/
def Ty.is_void (t : Ty) : Bool :=
  t.type_string == "void".data

/-- `Type.get_struct_name`.  Its guard reads `if is_struct():` — a
reference to a plain global name `is_struct`, which the module never
defines (the predicate exists only as the method `self.is_struct`).
Python resolves the name when the call is evaluated, so every call to
`get_struct_name` raises `NameError` before the branch or the return is
reached; the embedding therefore returns that error unconditionally,
for every receiver. -/
def Ty.get_struct_name (_t : Ty) : Except PyError Str :=
  Except.error PyError.nameError

/-- Embeds class `FunctionParameter`: a classified type plus the
parameter name. -/
structure FunctionParameter where
  type : Ty
  name : Str
deriving DecidableEq

/-- `FunctionParameter.__init__(string)`: the last space-separated
component is the name; everything before it, re-joined with spaces, is
the type string.  `components[-1]` is embedded as `getLastD` since
`splitc` never returns `[]`. -/
def FunctionParameter.ofString (s : Str) : FunctionParameter :=
  let components := splitc ' ' s
  let type_string := joinWith " ".data components.dropLast
  { type := Ty.ofString type_string, name := components.getLastD [] }

/-- `FunctionParameter.get_full_expression`. -/
def FunctionParameter.get_full_expression (p : FunctionParameter) : Str :=
  p.type.type_string ++ " ".data ++ p.name

/-- `FunctionParameter.get_struct_name` delegates to
`Type.get_struct_name` (and so also raises `NameError`). -/
def FunctionParameter.get_struct_name (p : FunctionParameter) : Except PyError Str :=
  p.type.get_struct_name

/-- `FunctionParameter.is_pointer_pointer`. -/
def FunctionParameter.is_pointer_pointer (p : FunctionParameter) : Bool :=
  p.type.is_pointer_pointer

/-- Embeds class `FunctionPrototype`: function name, return type and
ordered parameter list. -/
structure FunctionPrototype where
  parameters : List FunctionParameter
  ret : Ty
  function_name : Str
deriving DecidableEq

/-- The raw parameter-list fragment that `FunctionPrototype.__init__`
extracts from a line: `string.split("(")[-1].split(")")[0]`. -/
def param_fragment (s : Str) : Str :=
  (splitc ')' ((splitc '(' s).getLastD [])).headD []

/-- `FunctionPrototype.__init__(string)`.  Python's `[0]`/`[-1]`
indexing is embedded as `headD`/`getLastD`; the indexed lists are
results of `splitc`, which is never empty. -/
def FunctionPrototype.ofString (s : Str) : FunctionPrototype :=
  let parens_split := splitc '(' s
  let ret_and_name := splitc ' ' (parens_split.headD [])
  let all_params := (splitc ')' (parens_split.getLastD [])).headD []
  let param_strings := splitc ',' all_params
  { parameters := param_strings.map FunctionParameter.ofString
    ret := Ty.ofString (joinWith " ".data ret_and_name.dropLast)
    function_name := ret_and_name.getLastD [] }

/-- `FunctionPrototype.get_string_of_parameters`. -/
def FunctionPrototype.get_string_of_parameters (pt : FunctionPrototype) : Str :=
  joinWith ", ".data (pt.parameters.map FunctionParameter.get_full_expression)

/-- `FunctionPrototype.get_num_parameters`. -/
def FunctionPrototype.get_num_parameters (pt : FunctionPrototype) : Nat :=
  pt.parameters.length

/-- `FunctionPrototype.get_parameter_types`. -/
def FunctionPrototype.get_parameter_types (pt : FunctionPrototype) : List Str :=
  pt.parameters.map (fun p => p.type.type_string)

/-- `FunctionPrototype.get_port_name`. -/
def FunctionPrototype.get_port_name (pt : FunctionPrototype) : Str :=
  "UHYVE_PORT_".data ++ pyUpper pt.function_name

/-- `FunctionPrototype.get_args_struct_name`. -/
def FunctionPrototype.get_args_struct_name (pt : FunctionPrototype) : Str :=
  "uhyve_".data ++ pt.function_name ++ "_t".data

/-- `FunctionPrototype.get_uhyve_call_function_name`. -/
def FunctionPrototype.get_uhyve_call_function_name (pt : FunctionPrototype) : Str :=
  "call_".data ++ pt.function_name

/-- `FunctionPrototype.generate_args_struct`: the packed record holding
one function's parameters and (if non-void) return value.  The Python
`for`-loop accumulating into `code` is a `foldl`; `self.parameters or
[]` equals `self.parameters` because a false-y parameter list is
already `[]`. -/
def FunctionPrototype.generate_args_struct (pt : FunctionPrototype) : Str :=
  let code := "typedef struct \x7b\n".data
  let code := code ++ "\t// Parameters:\n".data
  let code := pt.parameters.foldl
    (fun code param => code ++ ("\t".data ++ param.get_full_expression ++ ";\n".data)) code
  let code := if !pt.ret.is_void then
      code ++ ("\t// Return value:\n".data ++ "\t".data ++ pt.ret.type_string ++ " ret;\n".data)
    else code
  code ++ ("\x7d __attribute__((packed)) ".data ++ pt.get_args_struct_name ++ ";\n\n".data)

/-- `FunctionPrototype.generate_function_declaration`. -/
def FunctionPrototype.generate_function_declaration (pt : FunctionPrototype) : Str :=
  pt.ret.type_string ++ " ".data ++ pt.function_name ++ "(".data
    ++ pt.get_string_of_parameters ++ ");\n".data

/-- `FunctionPrototype.generate_uhyve_function_declaration`. -/
def FunctionPrototype.generate_uhyve_function_declaration (pt : FunctionPrototype) : Str :=
  "void ".data ++ pt.get_uhyve_call_function_name
    ++ "(struct kvm_run * run, uint8_t * guest_mem);\n".data

/-- `generate_pretty_comment`. -/
def generate_pretty_comment (s : Str) : Str :=
  "/*\n * ".data ++ s ++ "\n */\n\n".data

/-- `generate_kernel_header_declarations`: concatenates the guest-side
forward declarations, in input order. -/
def generate_kernel_header_declarations (function_prototypes : List FunctionPrototype) : Str :=
  function_prototypes.foldl
    (fun code pt => code ++ pt.generate_function_declaration) []

/-- `generate_kernel_function`: the guest-side stub that fills the
argument record and triggers the KVM exit IO.  `params or []` equals
`params` (a false-y list is already `[]`). -/
def generate_kernel_function (function_prototype : FunctionPrototype) : Str :=
  let fnc_name := function_prototype.function_name
  let ret_type := function_prototype.ret
  let params := function_prototype.parameters
  let port_name := function_prototype.get_port_name
  let comma_separated_params := function_prototype.get_string_of_parameters
  let code := ret_type.type_string ++ " ".data ++ fnc_name ++ "(".data
    ++ comma_separated_params ++ ") \x7b\n".data
  let code := code ++ ("\t".data ++ function_prototype.get_args_struct_name ++ " uhyve_args;\n".data)
  let code := params.foldl
    (fun code p =>
      if p.is_pointer_pointer then
        code ++ "\t// TODO: Take care of ** parameter.\n".data
      else
        code ++ ("\tuhyve_args.".data ++ p.name ++ " = ".data ++ p.name ++ ";\n".data)) code
  let code := code ++ "\n".data
  let code := code ++ ("\tuhyve_send(".data ++ port_name
    ++ ", (unsigned) virt_to_phys((size_t) &uhyve_args));\n".data)
  let code := if !ret_type.is_void then code ++ "\n\treturn uhyve_args.ret;\n".data else code
  code ++ "\x7d\n\n".data

/-- `generate_uhyve_cases`: the fixed `UHYVE_PORT_SET_IB_POOL_ADDR`
case followed by one dispatch case per prototype. -/
def generate_uhyve_cases (function_prototypes : List FunctionPrototype) : Str :=
  let code := "\t\t\tcase UHYVE_PORT_SET_IB_POOL_ADDR: \x7b\n".data
  let code := code ++ "\t\t\t\t\tunsigned data = *((unsigned*)((size_t)run+run->io.data_offset));\n".data
  let code := code ++ "\t\t\t\t\tuint64_t * temp = (uint64_t*)(guest_mem + data);\n".data
  let code := code ++ "\t\t\t\t\tib_pool_addr = (uint8_t*) *temp;\n".data
  let code := code ++ "\t\t\t\t\tib_pool_top = ib_pool_addr;\n".data
  let code := code ++ "\t\t\t\t\tbreak;\n".data
  let code := code ++ "\t\t\t\x7d\n\n".data
  function_prototypes.foldl
    (fun code pt =>
      code ++ ("\t\t\tcase ".data ++ pt.get_port_name ++ ":\n".data
        ++ "\t\t\t\t".data ++ pt.get_uhyve_call_function_name ++ "(run, guest_mem);\n".data
        ++ "\t\t\t\tbreak;\n".data)) code

/-- `generate_uhyve_function`: the host-side dispatch function.  The
final argument `parameters[-1]` is only read under the
`get_num_parameters() > 0` guard, so the `getLastD` default is never
used. -/
def generate_uhyve_function (prototype : FunctionPrototype) : Str :=
  let args_struct_name := prototype.get_args_struct_name
  let fnc_name := prototype.function_name
  let ret_type := prototype.ret
  let code := generate_pretty_comment fnc_name
  let code := code ++ ("void call_".data ++ fnc_name
    ++ "(struct kvm_run * run, uint8_t * guest_mem) \x7b\n".data)
  let code := code ++ ("\tprintf(\"LOG: UHYVE - call_".data ++ fnc_name ++ "\\n\");\n".data)
  let code := code ++ "\tunsigned data = *((unsigned*) ((size_t) run + run->io.data_offset));\n".data
  let code := code ++ ("\t".data ++ args_struct_name ++ " * args = (".data
    ++ args_struct_name ++ " *) (guest_mem + data);\n\n".data)
  let code := code ++ "\tuse_ib_mem_pool = true;\n".data
  let code := code ++ ("\t".data
    ++ (if !ret_type.is_void then "args->ret = ".data else [])
    ++ fnc_name ++ "(".data)
  let code := if prototype.get_num_parameters > 0 then
      let code := prototype.parameters.dropLast.foldl
        (fun code param => code ++ ("args->".data ++ param.name ++ ", ".data)) code
      code ++ ("args->".data
        ++ (prototype.parameters.getLastD ⟨Ty.ofString [], []⟩).name ++ ");\n".data)
    else code
  code ++ "\tuse_ib_mem_pool = false;\n\x7d\n\n\n".data

/-- Pairs each list element with its index counted from `n`:
Python `enumerate(xs, n)`. -/
def enumFrom {α : Type} (n : Nat) : List α → List (Nat × α)
  | [] => []
  | x :: xs => (n, x) :: enumFrom (n + 1) xs

/-- `generate_port_enum`: the enum mapping KVM exit IO port names to
port numbers, with the reserved pool-address port at
`PORT_NUMBER_START - 1` first. -/
def generate_port_enum (function_prototypes : List FunctionPrototype) : Str :=
  let code := "typedef enum \x7b\n".data
  let code := code ++ ("\tUHYVE_PORT_SET_IB_POOL_ADDR = 0x".data
    ++ toHexUpper (PORT_NUMBER_START - 1) ++ ",\n".data)
  let code := (enumFrom PORT_NUMBER_START function_prototypes).foldl
    (fun code np =>
      code ++ ("\t".data ++ np.2.get_port_name ++ " = 0x".data
        ++ toHexUpper np.1 ++ ",\n".data)) code
  code ++ "\x7d uhyve_ibv_t;".data

/-- `generate_port_macros`: the `#define` lines for the same ports, in
the same order. -/
def generate_port_macros (function_prototypes : List FunctionPrototype) : Str :=
  let code := "#define UHYVE_PORT_SET_IB_POOL_ADDR 0x".data
    ++ toHexUpper (PORT_NUMBER_START - 1) ++ "\n".data
  (enumFrom PORT_NUMBER_START function_prototypes).foldl
    (fun code np =>
      code ++ ("#define ".data ++ np.2.get_port_name ++ " 0x".data
        ++ toHexUpper np.1 ++ "\n".data)) code

/-- Python text-file line iteration: each line keeps its trailing
newline; a final fragment without a newline is still yielded; the empty
file yields nothing. -/
def pythonLines (s : Str) : List Str :=
  let parts := splitc '\n' s
  parts.dropLast.map (fun p => p ++ ['\n'])
    ++ (if parts.getLastD [] = [] then [] else [parts.getLastD []])

/-- The `__main__` input loop: `for line in f: if line:
prototypes.append(FunctionPrototype(line))`.  Python's `if line:` tests
string truthiness, i.e. non-emptiness. -/
def parse_input (content : Str) : List FunctionPrototype :=
  (pythonLines content).foldl
    (fun prototypes line =>
      if line ≠ [] then prototypes ++ [FunctionPrototype.ofString line] else prototypes) []

/-- The six generated files, as written by `__main__`. -/
structure GeneratedFiles where
  uhyve_cases : Str
  stddef_macros : Str
  uhyve_ibv_header : Str
  uhyve_host_fcns : Str
  kernel_header : Str
  kernel : Str
deriving DecidableEq

/-- `__main__` output assembly: the content of each generated file as a
function of the parsed prototype list. -/
def generate_all (prototypes : List FunctionPrototype) : GeneratedFiles :=
  { uhyve_cases := generate_uhyve_cases prototypes
    stddef_macros := generate_port_macros prototypes
    uhyve_ibv_header :=
      generate_port_enum prototypes ++ "\n\n".data
        ++ (prototypes.map FunctionPrototype.generate_args_struct).flatten ++ "\n\n".data
        ++ (prototypes.map FunctionPrototype.generate_uhyve_function_declaration).flatten
    uhyve_host_fcns := (prototypes.map generate_uhyve_function).flatten
    kernel_header := generate_kernel_header_declarations prototypes
    kernel := (prototypes.map (fun pt =>
      generate_pretty_comment pt.function_name ++ pt.generate_args_struct
        ++ generate_kernel_function pt ++ "\n".data)).flatten }

/-- The name-to-code mapping that both port emitters denote: the
reserved control port at `PORT_NUMBER_START - 1`, then one code per
prototype, assigned by `enumerate(function_prototypes,
PORT_NUMBER_START)` in input order. -/
def port_entries (function_prototypes : List FunctionPrototype) : List (Str × Nat) :=
  ("UHYVE_PORT_SET_IB_POOL_ADDR".data, PORT_NUMBER_START - 1) ::
    (enumFrom PORT_NUMBER_START function_prototypes).map
      (fun np => (np.2.get_port_name, np.1))

/-- One enum line, as `generate_port_enum` formats an entry. -/
def render_enum_entry (e : Str × Nat) : Str :=
  "\t".data ++ e.1 ++ " = 0x".data ++ toHexUpper e.2 ++ ",\n".data

/-- One macro line, as `generate_port_macros` formats an entry. -/
def render_macro_entry (e : Str × Nat) : Str :=
  "#define ".data ++ e.1 ++ " 0x".data ++ toHexUpper e.2 ++ "\n".data

/-- The canonical prototype line rebuilt from a model: return-type
string, function name, and the §4.3 canonical comma-joined
parameter-expression string (`get_string_of_parameters`), re-wrapped in
parentheses. -/
def reparse_line (pt : FunctionPrototype) : Str :=
  pt.ret.type_string ++ " ".data ++ pt.function_name ++ "(".data
    ++ pt.get_string_of_parameters ++ ")".data

/-- Re-parsing the canonical line through the prototype parser. -/
def reparsed (pt : FunctionPrototype) : FunctionPrototype :=
  FunctionPrototype.ofString (reparse_line pt)

/-- Prepends one space to the type string of every parameter after the
first: the change that one round trip through
`get_string_of_parameters` actually makes. -/
def spaceAdjust : List Str → List Str
  | [] => []
  | t :: ts => t :: ts.map (fun u => ' ' :: u)

/-- Spec scenario A input line. -/
def lineA : Str :=
  "int ibv_rereg_mr(struct ibv_mr * mr, int flags, struct ibv_pd * pd)".data

/-- Spec scenario A prototype. -/
def protoA : FunctionPrototype := FunctionPrototype.ofString lineA

/-- Spec scenario B prototype (void return). -/
def protoB : FunctionPrototype :=
  FunctionPrototype.ofString "void ibv_ack_async_event(struct ibv_async_event * event)".data

/-- Spec scenario D prototypes `f1, f2, f3`, in order. -/
def protosD : List FunctionPrototype :=
  [FunctionPrototype.ofString "int f1(int a)".data,
   FunctionPrototype.ofString "int f2(int b)".data,
   FunctionPrototype.ofString "int f3(int c)".data]

/-- An input file with two prototype lines separated by a blank line. -/
def input7 : Str := "int f(int a)\n\nint g(int b)\n".data

/-! ### Properties of the string primitives -/

theorem splitc_ne_nil (sep : Char) (s : Str) : splitc sep s ≠ [] := by
  cases s with
  | nil => simp [splitc]
  | cons c cs =>
    rw [splitc]
    cases splitc sep cs with
    | nil => simp
    | cons r rs =>
      dsimp only
      split <;> simp

/-- Convenient closed form of `splitc` on a cons. -/
theorem splitc_cons (sep c : Char) (cs : Str) :
    splitc sep (c :: cs) =
      if c = sep then [] :: splitc sep cs
      else (c :: (splitc sep cs).headD []) :: (splitc sep cs).tail := by
  rw [splitc]
  cases h : splitc sep cs with
  | nil => exact absurd h (splitc_ne_nil sep cs)
  | cons r rs => dsimp only; split <;> simp

theorem joinWith_cons_head (sep : Str) (c : Char) (r : Str) (rs : List Str) :
    joinWith sep ((c :: r) :: rs) = c :: joinWith sep (r :: rs) := by
  cases rs <;> simp [joinWith]

/-- Splitting and re-joining with the same separator is the identity:
`sep.join(s.split(sep)) == s` in Python. -/
theorem join_splitc (sep : Char) (s : Str) : joinWith [sep] (splitc sep s) = s := by
  induction s with
  | nil => rfl
  | cons c cs ih =>
    rw [splitc]
    cases h : splitc sep cs with
    | nil => exact absurd h (splitc_ne_nil sep cs)
    | cons r rs =>
      rw [h] at ih
      dsimp only
      by_cases hc : c = sep
      · subst hc
        rw [if_pos rfl]
        cases rs <;> simpa [joinWith] using ih
      · rw [if_neg hc, joinWith_cons_head, ih]

theorem splitc_of_not_mem {sep : Char} {s : Str} (h : sep ∉ s) : splitc sep s = [s] := by
  induction s with
  | nil => rfl
  | cons c cs ih =>
    rw [splitc_cons, ih (fun hm => h (List.mem_cons_of_mem _ hm)),
      if_neg (fun hc => h (by rw [hc]; exact List.mem_cons_self sep cs))]
    rfl

/-- Splitting `t ++ sep ++ n` where the suffix `n` is separator-free:
the pieces of `t` followed by the final piece `n`. -/
theorem splitc_append_last {sep : Char} (t n : Str) (h : sep ∉ n) :
    splitc sep (t ++ sep :: n) = splitc sep t ++ [n] := by
  induction t with
  | nil =>
    rw [List.nil_append, splitc_cons, if_pos rfl, splitc_of_not_mem h]
    rfl
  | cons c t2 ih =>
    rw [List.cons_append, splitc_cons, ih, splitc_cons]
    cases h2 : splitc sep t2 with
    | nil => exact absurd h2 (splitc_ne_nil sep t2)
    | cons r rs =>
      by_cases hc : c = sep
      · rw [if_pos hc, if_pos hc]
        rfl
      · rw [if_neg hc, if_neg hc]
        simp

/-- Splitting `a ++ sep ++ b` where the prefix `a` is separator-free:
the piece `a` followed by the pieces of `b`. -/
theorem splitc_append_first {sep : Char} (a b : Str) (h : sep ∉ a) :
    splitc sep (a ++ sep :: b) = a :: splitc sep b := by
  induction a with
  | nil => rw [List.nil_append, splitc_cons, if_pos rfl]
  | cons c a2 ih =>
    have hc : c ≠ sep := fun hc => h (by rw [hc]; exact List.mem_cons_self sep a2)
    rw [List.cons_append, splitc_cons,
      ih (fun hm => h (List.mem_cons_of_mem _ hm)), if_neg hc]
    rfl

/-- No piece produced by `splitc` contains the separator. -/
theorem not_mem_of_mem_splitc {sep : Char} {s x : Str}
    (hx : x ∈ splitc sep s) : sep ∉ x := by
  induction s generalizing x with
  | nil =>
    simp only [splitc, List.mem_singleton] at hx
    subst hx; simp
  | cons c cs ih =>
    rw [splitc_cons] at hx
    cases h2 : splitc sep cs with
    | nil => exact absurd h2 (splitc_ne_nil sep cs)
    | cons r rs =>
      rw [h2] at hx
      simp only [List.headD_cons, List.tail_cons] at hx
      by_cases hc : c = sep
      · rw [if_pos hc] at hx
        rcases List.mem_cons.mp hx with hx | hx
        · subst hx; simp
        · exact ih (h2.symm ▸ hx)
      · rw [if_neg hc] at hx
        rcases List.mem_cons.mp hx with hx | hx
        · subst hx
          intro hmem
          rcases List.mem_cons.mp hmem with hmem | hmem
          · exact hc hmem.symm
          · exact ih (h2.symm ▸ List.mem_cons_self r rs) hmem
        · exact ih (h2.symm ▸ List.mem_cons_of_mem r hx)

/-- Every character of a `splitc` piece occurs in the split string. -/
theorem mem_of_mem_splitc {sep : Char} {s x : Str}
    (hx : x ∈ splitc sep s) {c : Char} (hc : c ∈ x) : c ∈ s := by
  induction s generalizing x with
  | nil =>
    simp only [splitc, List.mem_singleton] at hx
    subst hx; simp at hc
  | cons d cs ih =>
    rw [splitc_cons] at hx
    cases h2 : splitc sep cs with
    | nil => exact absurd h2 (splitc_ne_nil sep cs)
    | cons r rs =>
      rw [h2] at hx
      simp only [List.headD_cons, List.tail_cons] at hx
      by_cases hd : d = sep
      · rw [if_pos hd] at hx
        rcases List.mem_cons.mp hx with hx | hx
        · subst hx; simp at hc
        · exact List.mem_cons_of_mem d (ih (h2.symm ▸ hx) hc)
      · rw [if_neg hd] at hx
        rcases List.mem_cons.mp hx with hx | hx
        · subst hx
          rcases List.mem_cons.mp hc with hc | hc
          · exact hc ▸ List.mem_cons_self d cs
          · exact List.mem_cons_of_mem d
              (ih (h2.symm ▸ List.mem_cons_self r rs) hc)
        · exact List.mem_cons_of_mem d
            (ih (h2.symm ▸ List.mem_cons_of_mem r hx) hc)

/-- Every character of a join comes from the separator or a piece. -/
theorem mem_joinWith {sep : Str} {l : List Str} {c : Char}
    (hc : c ∈ joinWith sep l) : c ∈ sep ∨ ∃ x ∈ l, c ∈ x := by
  induction l with
  | nil => simp [joinWith] at hc
  | cons x xs ih =>
    cases xs with
    | nil =>
      rw [joinWith] at hc
      exact Or.inr ⟨x, List.mem_cons_self x [], hc⟩
    | cons y ys =>
      rw [joinWith] at hc
      rcases List.mem_append.mp hc with hc | hc
      · rcases List.mem_append.mp hc with hc | hc
        · exact Or.inr ⟨x, List.mem_cons_self x (y :: ys), hc⟩
        · exact Or.inl hc
      · rcases ih hc with hc | ⟨z, hz, hcz⟩
        · exact Or.inl hc
        · exact Or.inr ⟨z, List.mem_cons_of_mem x hz, hcz⟩

theorem getLastD_mem_of_ne_nil {α : Type} :
    ∀ (l : List α) (d : α), l ≠ [] → l.getLastD d ∈ l
  | [], _, h => absurd rfl h
  | [a], _, _ => by simp
  | a :: b :: l, d, _ => by
    rw [List.getLastD_cons]
    exact List.mem_cons_of_mem a (getLastD_mem_of_ne_nil (b :: l) a (by simp))

/-- A loop of the shape `for x in l: code += f(x)` is appending the
concatenation of the rendered pieces, in list order. -/
theorem foldl_append_flatten {α : Type} (f : α → Str) (l : List α) (s : Str) :
    l.foldl (fun acc x => acc ++ f x) s = s ++ (l.map f).flatten := by
  induction l generalizing s with
  | nil => simp
  | cons x xs ih => simp [ih, List.append_assoc]

theorem enumFrom_map_snd {α : Type} (n : Nat) (l : List α) :
    (enumFrom n l).map Prod.snd = l := by
  induction l generalizing n with
  | nil => rfl
  | cons x xs ih => simp [enumFrom, ih]

theorem enumFrom_map_fst {α : Type} (n : Nat) (l : List α) :
    (enumFrom n l).map Prod.fst = List.range' n l.length := by
  induction l generalizing n with
  | nil => rfl
  | cons x xs ih =>
    rw [List.length_cons, List.range'_succ]
    simp [enumFrom, ih]

theorem headD_mem_of_ne_nil {α : Type} (l : List α) (d : α) (h : l ≠ []) :
    l.headD d ∈ l := by
  cases l with
  | nil => exact absurd rfl h
  | cons x xs => simp

@[simp] theorem Ty_ofString_type_string (s : Str) : (Ty.ofString s).type_string = s := rfl

@[simp] theorem Ty_ofString_components (s : Str) :
    (Ty.ofString s).type_components = splitc ' ' s := rfl

/-- Parsing a parameter fragment of the shape `TYPE ++ " " ++ NAME`
with a space-free name recovers exactly that type and name. -/
theorem FunctionParameter_ofString_concat (t n : Str) (hn : ' ' ∉ n) :
    FunctionParameter.ofString (t ++ ' ' :: n) = ⟨Ty.ofString t, n⟩ := by
  unfold FunctionParameter.ofString
  dsimp only
  rw [splitc_append_last t n hn, List.dropLast_concat, List.getLastD_concat, join_splitc]

/-- One round trip at the parameter level: re-parsing a parameter's
`get_full_expression` returns the same parameter. -/
theorem reparse_fragment (frag : Str) :
    FunctionParameter.ofString ((FunctionParameter.ofString frag).get_full_expression)
      = FunctionParameter.ofString frag := by
  have hne := splitc_ne_nil ' ' frag
  have hn : ' ' ∉ (splitc ' ' frag).getLastD [] :=
    not_mem_of_mem_splitc (getLastD_mem_of_ne_nil _ _ hne)
  have hexpr : (FunctionParameter.ofString frag).get_full_expression
      = joinWith [' '] (splitc ' ' frag).dropLast ++ ' ' :: (splitc ' ' frag).getLastD [] := by
    simp [FunctionParameter.get_full_expression, FunctionParameter.ofString,
      List.append_assoc]
  rw [hexpr, FunctionParameter_ofString_concat _ _ hn]
  rfl

/-- Re-parsing a parameter expression that gained a leading space: the
name survives, the type string gains that space. -/
theorem reparse_fragment_shifted (frag : Str) :
    FunctionParameter.ofString
        (' ' :: (FunctionParameter.ofString frag).get_full_expression)
      = ⟨Ty.ofString (' ' :: (FunctionParameter.ofString frag).type.type_string),
         (FunctionParameter.ofString frag).name⟩ := by
  have hne := splitc_ne_nil ' ' frag
  have hn : ' ' ∉ (splitc ' ' frag).getLastD [] :=
    not_mem_of_mem_splitc (getLastD_mem_of_ne_nil _ _ hne)
  have hexpr : (' ' :: (FunctionParameter.ofString frag).get_full_expression)
      = (' ' :: joinWith [' '] (splitc ' ' frag).dropLast)
          ++ ' ' :: (splitc ' ' frag).getLastD [] := by
    simp [FunctionParameter.get_full_expression, FunctionParameter.ofString,
      List.append_assoc]
  rw [hexpr, FunctionParameter_ofString_concat _ _ hn]
  rfl

/-- Splitting a `sep ++ c2`-joined list of separator-free pieces on
`sep` returns the first piece intact and prepends `c2` to every later
piece: the exact effect of re-splitting the output of `", ".join` on
`","`. -/
theorem splitc_joinWith_two (sep c2 : Char) (e : Str) (es : List Str)
    (h2 : c2 ≠ sep) (he : sep ∉ e) (hes : ∀ x ∈ es, sep ∉ x) :
    splitc sep (joinWith [sep, c2] (e :: es))
      = e :: es.map (fun x => c2 :: x) := by
  induction es generalizing e with
  | nil => simp [joinWith, splitc_of_not_mem he]
  | cons f fs ih =>
    have hstep : joinWith [sep, c2] (e :: f :: fs)
        = e ++ sep :: (c2 :: joinWith [sep, c2] (f :: fs)) := by
      simp [joinWith, List.append_assoc]
    rw [hstep, splitc_append_first _ _ he, splitc_cons, if_neg (fun hc => h2 hc)]
    have hrec := ih f (hes f (List.mem_cons_self f fs))
      (fun x hx => hes x (List.mem_cons_of_mem f hx))
    rw [hrec]
    simp

/-- A character that is neither a space nor a character of the source
fragment does not occur in the parsed parameter's full expression. -/
theorem not_mem_full_expr {c : Char} (hc : c ≠ ' ') {frag : Str} (h : c ∉ frag) :
    c ∉ (FunctionParameter.ofString frag).get_full_expression := by
  intro hmem
  have hexpr : (FunctionParameter.ofString frag).get_full_expression
      = joinWith [' '] (splitc ' ' frag).dropLast ++ ' ' :: (splitc ' ' frag).getLastD [] := by
    simp [FunctionParameter.get_full_expression, FunctionParameter.ofString,
      List.append_assoc]
  rw [hexpr] at hmem
  rcases List.mem_append.mp hmem with hmem | hmem
  · rcases mem_joinWith hmem with hmem | ⟨x, hx, hcx⟩
    · simp at hmem
      exact hc hmem
    · exact h (mem_of_mem_splitc ((List.dropLast_sublist _).subset hx) hcx)
  · rcases List.mem_cons.mp hmem with hmem | hmem
    · exact hc hmem
    · exact h (mem_of_mem_splitc
        (getLastD_mem_of_ne_nil _ _ (splitc_ne_nil ' ' frag)) hmem)

/-- Extracting the parameter fragment back out of a reassembled line
`A ++ "(" ++ P ++ ")"` recovers `P`, provided `A` contains no `(` and
`P` contains neither parenthesis. -/
theorem param_fragment_reassembled (a p : Str)
    (ha : '(' ∉ a) (hp1 : '(' ∉ p) (hp2 : ')' ∉ p) :
    param_fragment (a ++ '(' :: (p ++ [')'])) = p := by
  unfold param_fragment
  have hp3 : '(' ∉ p ++ [')'] := by
    intro hmem
    rcases List.mem_append.mp hmem with hmem | hmem
    · exact hp1 hmem
    · simp at hmem
  rw [splitc_append_first _ _ ha, splitc_of_not_mem hp3]
  simp only [List.getLastD_cons, List.getLastD_nil]
  have hsplit : splitc ')' (p ++ [')']) = p :: splitc ')' [] := by
    have hshape : (p ++ [')'] : Str) = p ++ ')' :: [] := by simp
    rw [hshape, splitc_append_first _ _ hp2]
  rw [hsplit]
  rfl

theorem ofString_parameters (s : Str) :
    (FunctionPrototype.ofString s).parameters
      = (splitc ',' (param_fragment s)).map FunctionParameter.ofString := rfl

theorem ofString_get_string_of_parameters (s : Str) :
    (FunctionPrototype.ofString s).get_string_of_parameters
      = joinWith [',', ' ']
          (((splitc ',' (param_fragment s)).map FunctionParameter.ofString).map
            FunctionParameter.get_full_expression) := rfl

/-- What the parser makes of the canonical line rebuilt from a parsed
prototype: the first parameter is recovered exactly; every later
parameter keeps its name but its type string gains the one leading
space that `", ".join` + `",".split` leave behind. -/
theorem reparsed_parameters (line f0 : Str) (fr : List Str)
    (h : splitc ',' (param_fragment line) = f0 :: fr) :
    (reparsed (FunctionPrototype.ofString line)).parameters
      = FunctionParameter.ofString f0
          :: fr.map (fun f =>
               { type := Ty.ofString
                   (' ' :: (FunctionParameter.ofString f).type.type_string),
                 name := (FunctionParameter.ofString f).name }) := by
  have hhead : '(' ∉ (splitc '(' line).headD [] :=
    not_mem_of_mem_splitc (headD_mem_of_ne_nil _ _ (splitc_ne_nil '(' line))
  have hretfree : '(' ∉ (FunctionPrototype.ofString line).ret.type_string := by
    intro hmem
    have hform : (FunctionPrototype.ofString line).ret.type_string
        = joinWith [' '] (splitc ' ' ((splitc '(' line).headD [])).dropLast := rfl
    rw [hform] at hmem
    rcases mem_joinWith hmem with hmem | ⟨x, hx, hcx⟩
    · simp at hmem
    · exact hhead (mem_of_mem_splitc ((List.dropLast_sublist _).subset hx) hcx)
  have hfnfree : '(' ∉ (FunctionPrototype.ofString line).function_name := by
    intro hmem
    have hform : (FunctionPrototype.ofString line).function_name
        = (splitc ' ' ((splitc '(' line).headD [])).getLastD [] := rfl
    rw [hform] at hmem
    exact hhead (mem_of_mem_splitc
      (getLastD_mem_of_ne_nil _ _ (splitc_ne_nil _ _)) hmem)
  have hBfree : '(' ∉ (splitc '(' line).getLastD [] :=
    not_mem_of_mem_splitc (getLastD_mem_of_ne_nil _ _ (splitc_ne_nil '(' line))
  have hfrag1 : '(' ∉ param_fragment line := by
    intro hmem
    exact hBfree (mem_of_mem_splitc
      (headD_mem_of_ne_nil _ _ (splitc_ne_nil ')' _)) hmem)
  have hfrag2 : ')' ∉ param_fragment line :=
    not_mem_of_mem_splitc (headD_mem_of_ne_nil _ _ (splitc_ne_nil ')' _))
  have hef : ∀ f ∈ splitc ',' (param_fragment line),
      ',' ∉ (FunctionParameter.ofString f).get_full_expression ∧
      '(' ∉ (FunctionParameter.ofString f).get_full_expression ∧
      ')' ∉ (FunctionParameter.ofString f).get_full_expression := by
    intro f hf
    exact ⟨not_mem_full_expr (by decide) (not_mem_of_mem_splitc hf),
      not_mem_full_expr (by decide) (fun hm => hfrag1 (mem_of_mem_splitc hf hm)),
      not_mem_full_expr (by decide) (fun hm => hfrag2 (mem_of_mem_splitc hf hm))⟩
  have hPfree1 : '(' ∉ (FunctionPrototype.ofString line).get_string_of_parameters := by
    rw [ofString_get_string_of_parameters]
    intro hmem
    rcases mem_joinWith hmem with hmem | ⟨x, hx, hcx⟩
    · simp at hmem
    · rw [List.map_map, List.mem_map] at hx
      obtain ⟨f, hf, hfx⟩ := hx
      subst hfx
      exact (hef f hf).2.1 hcx
  have hPfree2 : ')' ∉ (FunctionPrototype.ofString line).get_string_of_parameters := by
    rw [ofString_get_string_of_parameters]
    intro hmem
    rcases mem_joinWith hmem with hmem | ⟨x, hx, hcx⟩
    · simp at hmem
    · rw [List.map_map, List.mem_map] at hx
      obtain ⟨f, hf, hfx⟩ := hx
      subst hfx
      exact (hef f hf).2.2 hcx
  have hAfree : '(' ∉ ((FunctionPrototype.ofString line).ret.type_string
      ++ ' ' :: (FunctionPrototype.ofString line).function_name) := by
    intro hmem
    rcases List.mem_append.mp hmem with hmem | hmem
    · exact hretfree hmem
    · rcases List.mem_cons.mp hmem with hmem | hmem
      · exact absurd hmem (by decide)
      · exact hfnfree hmem
  have hline : reparse_line (FunctionPrototype.ofString line)
      = ((FunctionPrototype.ofString line).ret.type_string
          ++ ' ' :: (FunctionPrototype.ofString line).function_name)
        ++ '(' :: ((FunctionPrototype.ofString line).get_string_of_parameters ++ [')']) := by
    unfold reparse_line
    simp [List.append_assoc]
  have hfragP : param_fragment (reparse_line (FunctionPrototype.ofString line))
      = (FunctionPrototype.ofString line).get_string_of_parameters := by
    rw [hline]
    exact param_fragment_reassembled _ _ hAfree hPfree1 hPfree2
  have hparams : (reparsed (FunctionPrototype.ofString line)).parameters
      = (splitc ',' ((FunctionPrototype.ofString line).get_string_of_parameters)).map
          FunctionParameter.ofString := by
    rw [reparsed, ofString_parameters, hfragP]
  have hsplitP : splitc ',' ((FunctionPrototype.ofString line).get_string_of_parameters)
      = (FunctionParameter.ofString f0).get_full_expression
          :: (fr.map (fun f => (FunctionParameter.ofString f).get_full_expression)).map
               (fun x => ' ' :: x) := by
    rw [ofString_get_string_of_parameters, h]
    simp only [List.map_cons]
    rw [List.map_map]
    refine splitc_joinWith_two ',' ' ' _ _ (by decide)
      (hef f0 (by rw [h]; exact List.mem_cons_self f0 fr)).1 ?_
    intro x hx
    rw [List.mem_map] at hx
    obtain ⟨f, hf, hfx⟩ := hx
    exact hfx ▸ (hef f (by rw [h]; exact List.mem_cons_of_mem f0 hf)).1
  rw [hparams, hsplitP]
  simp only [List.map_cons, List.map_map, reparse_fragment]
  congr 1
  apply List.map_congr_left
  intro f _
  exact reparse_fragment_shifted f

/-- `generate_port_enum` renders exactly the entries of
`port_entries`, one enum line per entry, in order. -/
theorem generate_port_enum_renders (pts : List FunctionPrototype) :
    generate_port_enum pts =
      "typedef enum \x7b\n".data ++ ((port_entries pts).map render_enum_entry).flatten
        ++ "\x7d uhyve_ibv_t;".data := by
  unfold generate_port_enum port_entries render_enum_entry
  simp [foldl_append_flatten, List.append_assoc]
  rfl

/-- `generate_port_macros` renders exactly the entries of
`port_entries`, one `#define` line per entry, in order. -/
theorem generate_port_macros_renders (pts : List FunctionPrototype) :
    generate_port_macros pts = ((port_entries pts).map render_macro_entry).flatten := by
  unfold generate_port_macros port_entries render_macro_entry
  simp [foldl_append_flatten, List.append_assoc]
  rfl

/-! ### Claims -/

/-- C1 (amended): a prototype line whose parameter-list fragment is
empty or a single space is parsed into a parameter list holding
exactly one phantom parameter whose type string and name are both
empty — not into an empty list. -/
theorem C1_empty_param_list_amended (line : Str)
    (h : param_fragment line = [] ∨ param_fragment line = [' ']) :
    (FunctionPrototype.ofString line).parameters
      = [{ type := Ty.ofString [], name := [] }] := by
  rw [ofString_parameters]
  rcases h with h | h <;> rw [h] <;> decide

/-- C1 witness: the zero-parameter prototype line `void foo()` has an
empty parameter fragment and parses to the single phantom parameter. -/
theorem C1_empty_param_list_witness :
    param_fragment "void foo()".data = []
    ∧ (FunctionPrototype.ofString "void foo()".data).parameters
        = [{ type := Ty.ofString [], name := [] }] :=
  ⟨by decide, C1_empty_param_list_amended _ (Or.inl (by decide))⟩

/-- C1 counterexample: parsing `void foo()` does not produce an empty
parameter list; it produces one phantom parameter with empty type
string and empty name. -/
theorem C1_empty_param_list_counterexample :
    (FunctionPrototype.ofString "void foo()".data).parameters ≠ []
    ∧ (FunctionPrototype.ofString "void foo()".data).parameters
        = [{ type := Ty.ofString [], name := [] }] := by decide

/-- C2: on the type string `struct ibv_context **` the classifier
reports kind struct (first token is `struct`) and pointer depth two
(last token is `**`), and the second token is `ibv_context`; but asking
for the struct tag via `get_struct_name` raises `NameError` instead of
returning it, because the method's guard calls the undefined global
`is_struct` instead of `self.is_struct`. -/
theorem C2_struct_tag_accessor_raises :
    (Ty.ofString "struct ibv_context **".data).is_struct = true
    ∧ (Ty.ofString "struct ibv_context **".data).type_components.getD 1 []
        = "ibv_context".data
    ∧ (Ty.ofString "struct ibv_context **".data).is_pointer_pointer = true
    ∧ (Ty.ofString "struct ibv_context **".data).get_struct_name
        = Except.error PyError.nameError :=
  ⟨by decide, by decide, by decide, rfl⟩

/-- C3 (amended): re-parsing the canonical comma-joined
parameter-expression string preserves every parameter name and the
first parameter's type string, but prepends exactly one space to the
type string of every later parameter (so the parameters are identical
only for prototypes with at most one parameter). -/
theorem C3_reparse_roundtrip_amended (line : Str) :
    (reparsed (FunctionPrototype.ofString line)).parameters.map FunctionParameter.name
        = (FunctionPrototype.ofString line).parameters.map FunctionParameter.name
    ∧ (reparsed (FunctionPrototype.ofString line)).parameters.map
          (fun p => p.type.type_string)
        = spaceAdjust ((FunctionPrototype.ofString line).parameters.map
            (fun p => p.type.type_string)) := by
  obtain ⟨f0, fr, h⟩ : ∃ f0 fr, splitc ',' (param_fragment line) = f0 :: fr := by
    cases hc : splitc ',' (param_fragment line) with
    | nil => exact absurd hc (splitc_ne_nil ',' _)
    | cons a l => exact ⟨a, l, rfl⟩
  rw [reparsed_parameters line f0 fr h, ofString_parameters, h]
  constructor
  · simp [List.map_map]
  · simp [List.map_map, spaceAdjust]

/-- C3 counterexample: for the three-parameter scenario-A prototype the
re-parsed model's parameter type strings differ from the original's
(the second and third each gain a leading space). -/
theorem C3_reparse_roundtrip_counterexample :
    (reparsed protoA).parameters.map (fun p => p.type.type_string)
      ≠ protoA.parameters.map (fun p => p.type.type_string) := by decide

/-- C4: the port mapping consists of the reserved control code
`PORT_NUMBER_START - 1` for `UHYVE_PORT_SET_IB_POOL_ADDR` followed by
the dense ascending codes `PORT_NUMBER_START + i` for the prototypes in
input order; `generate_port_enum` renders exactly these entries; and
for three prototypes `f1, f2, f3` with base `0x610` the codes are
`0x60F, 0x610, 0x611, 0x612`. -/
theorem C4_port_codes :
    (∀ pts : List FunctionPrototype,
      (port_entries pts).map Prod.snd
          = (PORT_NUMBER_START - 1) :: List.range' PORT_NUMBER_START pts.length
      ∧ (port_entries pts).map Prod.fst
          = "UHYVE_PORT_SET_IB_POOL_ADDR".data :: pts.map FunctionPrototype.get_port_name
      ∧ generate_port_enum pts
          = "typedef enum \x7b\n".data ++ ((port_entries pts).map render_enum_entry).flatten
            ++ "\x7d uhyve_ibv_t;".data)
    ∧ (port_entries protosD).map Prod.snd = [0x60F, 0x610, 0x611, 0x612] := by
  constructor
  · intro pts
    refine ⟨?_, ?_, generate_port_enum_renders pts⟩
    · unfold port_entries
      rw [List.map_cons, List.map_map]
      rw [show ((Prod.snd ∘ fun np : Nat × FunctionPrototype =>
        (np.2.get_port_name, np.1)) = Prod.fst) from rfl]
      rw [enumFrom_map_fst]
    · unfold port_entries
      rw [List.map_cons, List.map_map]
      have hcomp : ((Prod.fst ∘ fun np : Nat × FunctionPrototype =>
          (np.2.get_port_name, np.1))
          = (FunctionPrototype.get_port_name ∘ Prod.snd)) := rfl
      rw [hcomp, ← List.map_map, enumFrom_map_snd]
  · decide

/-- C5: the record-type emitter lists one field per parameter, in
declared parameter order, appends the `ret` field exactly when the
return type is not void, and declares the aggregate
`__attribute__((packed))`. -/
theorem C5_args_struct_fields (pt : FunctionPrototype) :
    pt.generate_args_struct =
      "typedef struct \x7b\n".data ++ "\t// Parameters:\n".data
        ++ (pt.parameters.map
              (fun param => "\t".data ++ param.get_full_expression ++ ";\n".data)).flatten
        ++ (if pt.ret.is_void then []
            else "\t// Return value:\n".data ++ "\t".data ++ pt.ret.type_string ++ " ret;\n".data)
        ++ ("\x7d __attribute__((packed)) ".data ++ pt.get_args_struct_name ++ ";\n\n".data) := by
  unfold FunctionPrototype.generate_args_struct
  simp only [foldl_append_flatten]
  cases h : pt.ret.is_void <;> simp [h, List.append_assoc]

/-- C6: the guest-stub emitter copies each non-pointer-pointer
parameter verbatim (`uhyve_args.NAME = NAME;`), emits the marked
placeholder comment for each pointer-pointer parameter, and appends
`return uhyve_args.ret;` exactly when the return type is not void; in
particular the stub for the void-returning scenario-B prototype
contains no `return` at all. -/
theorem C6_kernel_stub :
    (∀ pt : FunctionPrototype,
      generate_kernel_function pt =
        pt.ret.type_string ++ " ".data ++ pt.function_name ++ "(".data
          ++ pt.get_string_of_parameters ++ ") \x7b\n".data
          ++ ("\t".data ++ pt.get_args_struct_name ++ " uhyve_args;\n".data)
          ++ (pt.parameters.map
                (fun p =>
                  if p.is_pointer_pointer then "\t// TODO: Take care of ** parameter.\n".data
                  else "\tuhyve_args.".data ++ p.name ++ " = ".data ++ p.name ++ ";\n".data)).flatten
          ++ "\n".data
          ++ ("\tuhyve_send(".data ++ pt.get_port_name
              ++ ", (unsigned) virt_to_phys((size_t) &uhyve_args));\n".data)
          ++ (if pt.ret.is_void then [] else "\n\treturn uhyve_args.ret;\n".data)
          ++ "\x7d\n\n".data)
    ∧ ¬ ("return".data <:+: generate_kernel_function protoB) := by
  constructor
  · intro pt
    unfold generate_kernel_function
    have hbody :
        (fun (code : Str) (p : FunctionParameter) =>
          if p.is_pointer_pointer then
            code ++ "\t// TODO: Take care of ** parameter.\n".data
          else
            code ++ ("\tuhyve_args.".data ++ p.name ++ " = ".data ++ p.name ++ ";\n".data))
        = (fun code p => code ++
            (if p.is_pointer_pointer then "\t// TODO: Take care of ** parameter.\n".data
             else "\tuhyve_args.".data ++ p.name ++ " = ".data ++ p.name ++ ";\n".data)) := by
      funext code p
      split <;> rfl
    rw [hbody]
    simp only [foldl_append_flatten]
    cases h : pt.ret.is_void <;> simp [h, List.append_assoc]
  · decide

/-- C7: the input loop does not skip blank lines: file iteration keeps
each line's trailing newline, so the guard `if line:` also accepts the
blank line `"\n"`, and an input with two prototype lines separated by a
blank line yields three models, the middle one parsed from `"\n"`. -/
theorem C7_blank_lines_not_skipped :
    pythonLines input7 = ["int f(int a)\n".data, "\n".data, "int g(int b)\n".data]
    ∧ parse_input input7
        = [FunctionPrototype.ofString "int f(int a)\n".data,
           FunctionPrototype.ofString "\n".data,
           FunctionPrototype.ofString "int g(int b)\n".data]
    ∧ (parse_input input7).length = 3 := by decide

/-- C8: constructing a type descriptor and evaluating the flag
accessors is total, and an unrecognized shape yields all flags false;
but the struct-tag accessor `get_struct_name` fails on every input —
it raises `NameError` unconditionally — so the classifier is not
error-free. -/
theorem C8_classifier_accessors :
    (∀ s : Str, (Ty.ofString s).get_struct_name = Except.error PyError.nameError)
    ∧ (Ty.ofString "foo @@ bar~~".data).is_struct = false
    ∧ (Ty.ofString "foo @@ bar~~".data).is_pointer = false
    ∧ (Ty.ofString "foo @@ bar~~".data).is_pointer_pointer = false
    ∧ (Ty.ofString "foo @@ bar~~".data).is_char_arr = false
    ∧ (Ty.ofString "foo @@ bar~~".data).is_void = false :=
  ⟨fun _ => rfl, by decide⟩

/-- C9: the enum emitter and the macro emitter render one and the same
name-to-code mapping `port_entries` — reserved control code first, then
the prototypes' codes in input order — merely in two syntaxes. -/
theorem C9_port_mappings_agree (pts : List FunctionPrototype) :
    generate_port_enum pts
        = "typedef enum \x7b\n".data ++ ((port_entries pts).map render_enum_entry).flatten
          ++ "\x7d uhyve_ibv_t;".data
    ∧ generate_port_macros pts = ((port_entries pts).map render_macro_entry).flatten :=
  ⟨generate_port_enum_renders pts, generate_port_macros_renders pts⟩

/-- C10: generation is deterministic — the assembled outputs are a pure
function of the parsed prototype sequence, so equal inputs give
character-for-character equal artifacts. -/
theorem C10_generation_deterministic (pts1 pts2 : List FunctionPrototype)
    (h : pts1 = pts2) : generate_all pts1 = generate_all pts2 :=
  congrArg generate_all h

/-- C10 witness: instantiated at the scenario-D prototype list. -/
theorem C10_generation_deterministic_witness :
    protosD = protosD ∧ generate_all protosD = generate_all protosD :=
  ⟨rfl, C10_generation_deterministic protosD protosD rfl⟩
